import Mathlib

/-!
Verification of the arxiv_tool analysis pipeline (backend/analyzer.py,
backend/api.py) via a shallow embedding.

Modelling conventions:
* Python `float` scores are modelled as `Rat`; every score literal occurring
  in the source (0, 1.0, 6.0, 10) is exactly representable, and the source
  performs only comparisons and `max`/`min` on scores.
* Python string operations (`lower`, `strip`, slicing, `replace`,
  `startswith`, `in`) are modelled by the char-level functions below
  (`strLower`, `strTrim`, `strDrop`/`strTake`, `strReplace`,
  `strStartsWith`, `strHasSub`); `lower` agrees with Python on ASCII,
  which covers the `think:` marker and the markers used here.
* Calls to the external model service are oracles passed as parameters:
  a `Nat → Option _` oracle gives the outcome of the n-th call (with `none`
  for an exception / terminal retry failure), so the embedded functions are
  pure while quantifying over every possible service behaviour.
* `_save_paper` / `fetcher.save_paper` writes are collected in a `saves`
  list (the sequence of snapshots written to the record store); applying
  them to a store is `applySaves`.
* Timestamps, author lists, URLs and the hidden/starred flags play no role
  in the claims and are omitted from the record structure.
-/

/-- Substring membership on char lists: does `needle` occur contiguously? -/
def subAux (needle : List Char) : List Char → Bool
  | [] => needle.isEmpty
  | c :: rest => needle.isPrefixOf (c :: rest) || subAux needle rest

/-- Python `needle in hay` on strings (contiguous substring test). -/
def strHasSub (hay needle : String) : Bool :=
  subAux needle.data hay.data

/-- Python `str.lower()` (char-level; agrees with `str.lower` on ASCII). -/
def strLower (s : String) : String :=
  String.mk (s.data.map Char.toLower)

/-- Python `str.startswith(pre)`. -/
def strStartsWith (s pre : String) : Bool :=
  pre.data.isPrefixOf s.data

/-- Python `str.strip()` (drops leading/trailing whitespace). -/
def strTrim (s : String) : String :=
  String.mk (((s.data.dropWhile Char.isWhitespace).reverse.dropWhile
    Char.isWhitespace).reverse)

/-- Python `s[n:]` (drop the first n chars). -/
def strDrop (s : String) (n : Nat) : String :=
  String.mk (s.data.drop n)

/-- Python `s[:n]` (take the first n chars). -/
def strTake (s : String) (n : Nat) : String :=
  String.mk (s.data.take n)

/-- Left-to-right non-overlapping replacement of `pat` by `rep`; the fuel
(initialised to the char count) only bounds the scan, each step of which
consumes at least one char. -/
def replaceAux (pat rep : List Char) : Nat → List Char → List Char
  | 0, cs => cs
  | _ + 1, [] => []
  | fuel + 1, c :: cs =>
    if pat.isPrefixOf (c :: cs) then
      rep ++ replaceAux pat rep fuel ((c :: cs).drop pat.length)
    else
      c :: replaceAux pat rep fuel cs

/-- Python `s.replace(pat, rep)` for a non-empty pattern (the only use here
is the bracketed-id pattern, which is never empty). -/
def strReplace (s pat rep : String) : String :=
  if pat.data.isEmpty then s
  else String.mk (replaceAux pat.data rep.data s.data.length s.data)

/-- models.QAPair (timestamp omitted). -/
structure QAPair where
  question : String
  answer : String
  thinking : Option String := none
  is_reasoning : Bool := false
  parent_qa_id : Option Int := none
deriving Repr, DecidableEq

def qaDefault : QAPair := { question := "", answer := "" }

/-- models.Paper (claim-relevant fields; `html_content = ""` encodes the
Python falsy "no full text" case). -/
structure Paper where
  id : String
  title : String
  abstract : String
  html_content : String := ""
  preview_text : String := ""
  is_relevant : Option Bool := none
  relevance_score : Rat := 0
  extracted_keywords : List String := []
  one_line_summary : String := ""
  detailed_summary : String := ""
  qa_pairs : List QAPair := []
deriving Repr, DecidableEq

/-- models.Config (claim-relevant fields). -/
structure Config where
  filter_keywords : List String := []
  negative_keywords : List String := []
  preset_questions : List String := []
  system_prompt : String := "You are a helpful AI assistant analyzing academic papers."
  model : String := "deepseek-chat"
  min_relevance_score_for_stage2 : Rat := 6
deriving Repr, DecidableEq

/-- The fields the Stage-1 LLM path reads out of the parsed JSON reply,
with the `.get` defaults of analyzer.py lines 97-100 already applied.
The score is whatever number `float(...)` produced: the source applies
no clamping there. -/
structure Stage1Result where
  is_relevant : Bool := false
  relevance_score : Rat := 0
  extracted_keywords : List String := []
  one_line_summary : String := ""
deriving Repr, DecidableEq

/-- analyzer.py line 51: `f"{paper.title} {paper.preview_text}".lower()`. -/
def searchableText (p : Paper) : String :=
  strLower (p.title ++ " " ++ p.preview_text)

/-- The negative-keyword loop of analyzer.py lines 52-53: first keyword
whose lowercased text occurs in the searchable text. -/
def negScan (searchable : String) : List String → Option String
  | [] => none
  | kw :: rest =>
    if strHasSub searchable (strLower kw) then some kw else negScan searchable rest

/-- The fast-path demotion of analyzer.py lines 54-57. -/
def stage1Demote (p : Paper) (kw : String) : Paper :=
  { p with
    is_relevant := some false
    relevance_score := 1
    extracted_keywords := ["❌ " ++ kw]
    one_line_summary := "论文包含负面关键词「" ++ kw ++ "」，自动标记为不相关" }

/-- Terminal outcome of the 3-attempt retry loop of analyzer.py lines 82-119:
first successful call outcome among calls 0, 1, 2. -/
def retry3 (att : Nat → Option Stage1Result) : Option Stage1Result :=
  match att 0 with
  | some r => some r
  | none =>
    match att 1 with
    | some r => some r
    | none => att 2

/-- Number of model calls that loop makes (one per attempt, stopping at the
first success, at most 3). -/
def stage1Calls (att : Nat → Option Stage1Result) : Nat :=
  match att 0 with
  | some _ => 1
  | none =>
    match att 1 with
    | some _ => 2
    | none => 3

structure Stage1Run where
  paper : Paper
  saves : List Paper
  modelCalls : Nat
deriving Repr, DecidableEq

/-- DeepSeekAnalyzer.stage1_filter. `att n` is the outcome of the n-th
LLM call (the prompt text itself is absorbed into the oracle): `none`
means the call or the JSON parse raised. -/
def stage1_filter (paper : Paper) (cfg : Config) (att : Nat → Option Stage1Result) :
    Stage1Run :=
  match negScan (searchableText paper) cfg.negative_keywords with
  | some kw =>
    let p := stage1Demote paper kw
    ⟨p, [p], 0⟩
  | none =>
    match retry3 att with
    | some r =>
      let p := { paper with
        is_relevant := some r.is_relevant
        relevance_score := r.relevance_score
        extracted_keywords := r.extracted_keywords
        one_line_summary := r.one_line_summary }
      ⟨p, [p], stage1Calls att⟩
    | none =>
      ⟨{ paper with is_relevant := none }, [], 3⟩

/-- api.py update_relevance (lines 616-631): manual relevance update,
clamping the score with `max(0, min(10, ...))`. -/
def update_relevance (paper : Paper) (isRel : Bool) (score : Rat) : Paper :=
  { paper with
    is_relevant := some isRel
    relevance_score := max 0 (min 10 score) }

/-- The per-paper demotion done by api.py recheck_negative_keywords: unlike
the stage-1 fast path it PREPENDS the marker entry to the existing
extracted keywords. -/
def recheckDemote (p : Paper) (kw : String) : Paper :=
  { p with
    is_relevant := some false
    relevance_score := 1
    extracted_keywords := ("❌ " ++ kw) :: p.extracted_keywords
    one_line_summary := "论文包含负面关键词「" ++ kw ++ "」，自动标记为不相关" }

/-- api.py recheck_negative_keywords (lines 690-734): scan the relevant,
above-threshold records; each one matching some keyword of `negKws` (a
Python set, modelled as a list in iteration order) is demoted and saved.
Returns the list of saved (= demoted) records. -/
def recheck_negative_keywords (minScore : Rat) (negKws : List String)
    (papers : List Paper) : List Paper :=
  (papers.filter fun p =>
      p.is_relevant == some true && decide (minScore ≤ p.relevance_score)).filterMap
    fun p => (negScan (searchableText p) negKws).map (recheckDemote p)

/-- analyzer.py lines 134-138: the fixed context block (title + full text,
or abstract if the full text is empty). -/
def cachePfx (p : Paper) : String :=
  "Paper Title: " ++ p.title ++ "\n\nPaper Content:\n" ++
    (if p.html_content == "" then p.abstract else p.html_content) ++ "\n"

/-- The fixed detailed-summary instruction of analyzer.py lines 141-147. -/
def detailedSummaryQ : String :=
  "请用中文生成这篇论文的详细摘要（约200-300字），包括：\n1. 研究背景和动机\n2. 核心方法和技术创新\n3. 主要实验结果\n4. 研究意义和价值\n\n使用 Markdown 格式，让摘要清晰易读。"

/-- The single user message _ask_question sends (analyzer.py line 543). -/
def userMsgText (pfx q : String) : String :=
  pfx ++ "\n\nQuestion: " ++ q

structure QLoop where
  paper : Paper
  reqs : List (String × String)
  ok : Bool
deriving Repr, DecidableEq

/-- The preset-question loop of analyzer.py lines 165-185. `ask n` is the
terminal outcome of the n-th `_ask_question_with_retry` call of the stage
(`none` = all 3 retries failed). `reqs` records the (prefix, question)
pairs actually sent. -/
def stage2Questions (pfx : String) (ask : Nat → Option String) :
    Paper → Nat → List String → QLoop
  | p, _, [] => ⟨p, [], true⟩
  | p, k, q :: rest =>
    match ask k with
    | none => ⟨p, [(pfx, q)], false⟩
    | some a =>
      let p' := { p with qa_pairs := p.qa_pairs ++ [{ question := q, answer := a }] }
      let r := stage2Questions pfx ask p' (k + 1) rest
      ⟨r.paper, (pfx, q) :: r.reqs, r.ok⟩

/-- The QAPair entries the loop appends: one per question answered before
the first terminal failure. -/
def answeredEntries (ask : Nat → Option String) : Nat → List String → List QAPair
  | _, [] => []
  | k, q :: rest =>
    match ask k with
    | none => []
    | some a => { question := q, answer := a } :: answeredEntries ask (k + 1) rest

structure Stage2Run where
  paper : Paper
  saves : List Paper
  reqs : List (String × String)
  ok : Bool
deriving Repr, DecidableEq

/-- DeepSeekAnalyzer.stage2_qa (analyzer.py lines 123-193). Call 0 is the
detailed-summary request; call k+1 is the k-th preset question. -/
def stage2_qa (paper : Paper) (cfg : Config) (ask : Nat → Option String) :
    Stage2Run :=
  if paper.is_relevant == some true then
    let pfx := cachePfx paper
    match ask 0 with
    | none => ⟨paper, [], [(pfx, detailedSummaryQ)], false⟩
    | some s =>
      let p1 := { paper with detailed_summary := s }
      let r := stage2Questions pfx ask p1 1 cfg.preset_questions
      ⟨r.paper, if r.ok then [r.paper] else [], (pfx, detailedSummaryQ) :: r.reqs, r.ok⟩
  else
    ⟨paper, [], [], true⟩

/-- Effect of a sequence of `_save_paper` snapshots on the stored record
(file-per-record store: the last write wins). -/
def applySaves (store : Option Paper) (saves : List Paper) : Option Paper :=
  saves.foldl (fun _ p => some p) store

/-- Python `title[:60] + "..." if len(title) > 60 else title`. -/
def shortTitle (t : String) : String :=
  if t.length > 60 then strTake t 60 ++ "..." else t

/-- `paper.html_content or paper.abstract` (empty string is falsy). -/
def paperContent (p : Paper) : String :=
  if p.html_content == "" then p.abstract else p.html_content

/-- Matches the tail of the pattern `\[(\d{4}\.\d{4,5}(?:v\d+)?)\]` right
after an opening bracket; returns the captured id and the chars after the
closing bracket. Maximal digit runs faithfully reproduce the regex: the
greedy `\d{4,5}` with the following `(?:v\d+)?\]` succeeds exactly when
the full digit run after the dot has length 4 or 5. -/
def matchArxivId (cs : List Char) : Option (String × List Char) :=
  let d1 := cs.takeWhile Char.isDigit
  let r1 := cs.dropWhile Char.isDigit
  if d1.length == 4 then
    match r1 with
    | '.' :: r2 =>
      let d2 := r2.takeWhile Char.isDigit
      let r3 := r2.dropWhile Char.isDigit
      if d2.length == 4 || d2.length == 5 then
        match r3 with
        | ']' :: r4 => some (String.mk (d1 ++ '.' :: d2), r4)
        | 'v' :: r4 =>
          let dv := r4.takeWhile Char.isDigit
          let r5 := r4.dropWhile Char.isDigit
          if dv.isEmpty then none
          else
            match r5 with
            | ']' :: r6 => some (String.mk (d1 ++ '.' :: d2 ++ 'v' :: dv), r6)
            | _ => none
        | _ => none
      else none
    | _ => none
  else none

/-- Left-to-right non-overlapping scan of `re.findall` for the arXiv-id
pattern; the fuel (initialised to the char count) only bounds the number
of scan steps, each of which consumes at least one char. -/
def extractAux : Nat → List Char → List String
  | 0, _ => []
  | _ + 1, [] => []
  | fuel + 1, '[' :: rest =>
    match matchArxivId rest with
    | some (id, rest') => id :: extractAux fuel rest'
    | none => extractAux fuel rest
  | fuel + 1, _ :: rest => extractAux fuel rest

/-- `re.findall(r'\[(\d{4}\.\d{4,5}(?:v\d+)?)\]', q)`. -/
def extractArxivIds (q : String) : List String :=
  extractAux q.data.length q.data

/-- The `id_to_title` dict: keyed by id, first occurrence order. `resolve`
abstracts `fetch_single_paper` plus the ensure-analyzed calls for a
referenced record (`none` = the fetch raised and the reference is skipped). -/
def dedupKeys : List (String × String) → List (String × String)
  | [] => []
  | kv :: rest => kv :: (dedupKeys rest).filter (fun kv2 => kv2.1 != kv.1)

def idTitlePairs (resolve : String → Option Paper) (ids : List String) :
    List (String × String) :=
  dedupKeys (ids.filterMap fun i => (resolve i).map fun p => (i, shortTitle p.title))

/-- Rewrites each `[id]` in the question to `"short title"`. -/
def replaceIds (q : String) (pairs : List (String × String)) : String :=
  pairs.foldl (fun s kv => strReplace s ("[" ++ kv.1 ++ "]") ("\"" ++ kv.2 ++ "\"")) q

/-- The multi-section context of analyzer.py lines 274-289 / 419-434. -/
def refSections : Nat → List Paper → List String
  | _, [] => []
  | idx, p :: rest =>
    ("=== REFERENCE PAPER " ++ toString idx ++ " ===") ::
      ("Title: " ++ p.title) :: ("Content:\n" ++ paperContent p) :: "" ::
        refSections (idx + 1) rest

def buildRefContext (paper : Paper) (refs : List Paper) : String :=
  String.intercalate ("\n")
    ("=== CURRENT PAPER ===" :: ("Title: " ++ paper.title) ::
      ("Content:\n" ++ paperContent paper) :: "" :: refSections 1 refs)

/-- `question.lower().startswith("think:")` (analyzer.py line 215). -/
def isThinkQ (q : String) : Bool :=
  strStartsWith (strLower q) "think:"

/-- `question[6:].strip()` applied when the marker is present. -/
def effectiveQ (q : String) : String :=
  if isThinkQ q then strTrim (strDrop q 6) else q

/-- Python list indexing (negative indices count from the end; out of
range raises). -/
def pyGet (l : List QAPair) (i : Int) : Option QAPair :=
  if 0 ≤ i then
    if i < (l.length : Int) then l.get? i.toNat else none
  else
    if 0 ≤ (l.length : Int) + i then l.get? ((l.length : Int) + i).toNat else none

inductive WalkResult where
  | ok (hist : List (String × String))
  | err
  | timeout
deriving Repr, DecidableEq

/-- The parent-link walk of analyzer.py lines 257-266, with explicit fuel.
The Python `while` loop processes the current entry (collecting only its
question and answer — the thinking trace is deliberately dropped) and then
moves to its parent; `insert(0, ...)` makes the result oldest-first, which
is the `h ++ [(q, a)]` below. `err` models the IndexError on a dangling
reference; `timeout` is fuel exhaustion — with fuel `length + 1`, fuel can
only run out when an index repeats, i.e. exactly when the Python loop
never terminates. -/
def walkParents (qas : List QAPair) : Nat → Int → WalkResult
  | 0, _ => .timeout
  | fuel + 1, i =>
    match pyGet qas i with
    | none => .err
    | some qa =>
      match qa.parent_qa_id with
      | none => .ok [(qa.question, qa.answer)]
      | some j =>
        match walkParents qas fuel j with
        | .ok h => .ok (h ++ [(qa.question, qa.answer)])
        | .err => .err
        | .timeout => .timeout

/-- analyzer.py lines 254-266: the history is built only when a parent
position is supplied and passes the `0 <= parent_qa_id < len` guard. -/
def historyFor (qas : List QAPair) (parent : Option Int) : WalkResult :=
  match parent with
  | none => .ok []
  | some i =>
    if 0 ≤ i ∧ i < (qas.length : Int) then walkParents qas (qas.length + 1) i
    else .ok []

/-- Entry-local well-formedness: a parent reference at position `k` must
point to a strictly earlier position. -/
def qaParentOkB (k : Nat) (qa : QAPair) : Bool :=
  match qa.parent_qa_id with
  | none => true
  | some j => decide (0 ≤ j) && decide (j < (k : Int))

def wfAux : Nat → List QAPair → Bool
  | _, [] => true
  | k, qa :: rest => qaParentOkB k qa && wfAux (k + 1) rest

/-- The forest invariant: every entry's parent link points strictly
backwards. This is what in-range appends preserve. -/
def wellFormedB (qas : List QAPair) : Bool :=
  wfAux 0 qas

/-- One streamed delta from the model API (reasoning and content channels). -/
structure Delta where
  reasoning_content : Option String := none
  content : Option String := none
deriving Repr, DecidableEq

inductive Chunk where
  | thinking (s : String)
  | content (s : String)
deriving Repr, DecidableEq

/-- _ask_question_stream (analyzer.py lines 506-525): per delta, the
reasoning channel is forwarded only in reasoning mode, and empty/absent
payloads (Python falsy) are skipped. -/
def deltaChunks (isr : Bool) (d : Delta) : List Chunk :=
  (if isr then
    match d.reasoning_content with
    | some s => if s == "" then [] else [Chunk.thinking s]
    | none => []
  else []) ++
  (match d.content with
   | some s => if s == "" then [] else [Chunk.content s]
   | none => [])

def streamChunks (isr : Bool) (ds : List Delta) : List Chunk :=
  ds.flatMap (deltaChunks isr)

inductive StreamEvent where
  | thinking (chunk : String)
  | content (chunk : String)
  | error (chunk : String)
deriving Repr, DecidableEq

/-- The consumer-visible events of the chunk loop (analyzer.py lines 326-332). -/
def chunkEvents : List Chunk → List StreamEvent
  | [] => []
  | Chunk.thinking s :: r => StreamEvent.thinking s :: chunkEvents r
  | Chunk.content s :: r => StreamEvent.content s :: chunkEvents r

/-- `full_thinking` accumulated over a chunk list. -/
def accumThinking (cs : List Chunk) : String :=
  cs.foldl (fun acc c => match c with | Chunk.thinking s => acc ++ s | _ => acc) ""

/-- `full_answer` accumulated over a chunk list. -/
def accumAnswer (cs : List Chunk) : String :=
  cs.foldl (fun acc c => match c with | Chunk.content s => acc ++ s | _ => acc) ""

def attemptEvents (isr : Bool) (ds : List Delta) : List StreamEvent :=
  chunkEvents (streamChunks isr ds)

/-- Transient retry notice (analyzer.py line 341); the wait is `2 ** attempt`. -/
def transientMsg (wait : Nat) : String :=
  "⚠️ Connection error, retrying in " ++ toString wait ++ "s...\n"

/-- Terminal failure event (analyzer.py line 345). -/
def terminalMsg (e : String) : String :=
  "❌ Failed after 3 attempts: " ++ e

/-- The streaming retry loop of analyzer.py lines 312-346, unrolled for its
fixed 3 attempts. `att n = (deltas, errMsg)`: the deltas delivered during
the n-th streaming attempt before it either completed (`errMsg = none`) or
raised (`errMsg = some e`). Each new attempt restarts accumulation from
empty, so the returned accumulation comes from the successful attempt only.
Returns the full event sequence and `some (full_thinking, full_answer)` on
success, `none` on terminal failure. -/
def runAttempts (isr : Bool) (att : Nat → List Delta × Option String) :
    List StreamEvent × Option (String × String) :=
  match (att 0).2 with
  | none =>
    (attemptEvents isr (att 0).1,
      some (accumThinking (streamChunks isr (att 0).1), accumAnswer (streamChunks isr (att 0).1)))
  | some _ =>
    match (att 1).2 with
    | none =>
      (attemptEvents isr (att 0).1 ++ [StreamEvent.error (transientMsg 1)] ++
        attemptEvents isr (att 1).1,
        some (accumThinking (streamChunks isr (att 1).1), accumAnswer (streamChunks isr (att 1).1)))
    | some _ =>
      match (att 2).2 with
      | none =>
        (attemptEvents isr (att 0).1 ++ [StreamEvent.error (transientMsg 1)] ++
          attemptEvents isr (att 1).1 ++ [StreamEvent.error (transientMsg 2)] ++
          attemptEvents isr (att 2).1,
          some (accumThinking (streamChunks isr (att 2).1), accumAnswer (streamChunks isr (att 2).1)))
      | some e2 =>
        (attemptEvents isr (att 0).1 ++ [StreamEvent.error (transientMsg 1)] ++
          attemptEvents isr (att 1).1 ++ [StreamEvent.error (transientMsg 2)] ++
          attemptEvents isr (att 2).1 ++ [StreamEvent.error (terminalMsg e2)], none)

inductive Role where
  | system
  | user
  | assistant
deriving Repr, DecidableEq

structure Msg where
  role : Role
  content : String
deriving Repr, DecidableEq

/-- Message assembly of _ask_question_stream (analyzer.py lines 486-495):
system prompt, then the threaded history as alternating user/assistant
turns (question/answer only — no thinking), then the prefixed question. -/
def buildMessages (sys : String) (history : List (String × String))
    (pfx q : String) : List Msg :=
  ⟨Role.system, sys⟩ ::
    (history.flatMap fun qa => [⟨Role.user, "Question: " ++ qa.1⟩, ⟨Role.assistant, qa.2⟩]) ++
      [⟨Role.user, userMsgText pfx q⟩]

/-- The single model request a Q&A variant issues. -/
structure ModelRequest where
  mdl : String
  pfx : String
  q : String
  history : List (String × String)
  messages : List Msg
deriving Repr, DecidableEq

structure StreamRun where
  events : List StreamEvent
  paper : Paper
  saves : List Paper
  req : ModelRequest
deriving Repr, DecidableEq

/-- The single request ask_custom_question_stream sends: reasoning model if
the marker was present, the stripped question, the (single-paper or
combined) context, and the threaded history. -/
def streamReq (paper : Paper) (question : String) (cfg : Config)
    (resolve : String → Option Paper) (hist : List (String × String)) :
    ModelRequest :=
  let isr := isThinkQ question
  let q1 := effectiveQ question
  let ids := extractArxivIds q1
  let refs := ids.filterMap resolve
  let pfx := if refs.isEmpty then cachePfx paper else buildRefContext paper refs
  let finalQ := if refs.isEmpty then q1 else replaceIds q1 (idTitlePairs resolve ids)
  ⟨if isr then ("deepseek-reasoner") else cfg.model, pfx, finalQ, hist,
    buildMessages cfg.system_prompt hist pfx finalQ⟩

/-- The record after the QAPair append of analyzer.py lines 349-356:
the ORIGINAL (unstripped) question, the accumulated answer, the
accumulated thinking only in reasoning mode, the reasoning flag, and the
supplied parent position. -/
def streamAppended (paper : Paper) (question : String) (parent : Option Int)
    (ft fa : String) : Paper :=
  { paper with qa_pairs := paper.qa_pairs ++
    [{ question := question, answer := fa,
       thinking := if isThinkQ question then some ft else none,
       is_reasoning := isThinkQ question, parent_qa_id := parent }] }

/-- DeepSeekAnalyzer.ask_custom_question_stream (analyzer.py lines 195-357).
`resolve` abstracts reference fetching/analysis (see `idTitlePairs`); `att`
is the streaming-attempt oracle. The result is `none` exactly when the
parent-link walk raises IndexError or never terminates (in which case the
Python generator never reaches the streaming phase). The QAPair is appended
and saved only on success with a non-empty accumulation. -/
def ask_custom_question_stream (paper : Paper) (question : String) (cfg : Config)
    (parent : Option Int) (resolve : String → Option Paper)
    (att : Nat → List Delta × Option String) : Option StreamRun :=
  match historyFor paper.qa_pairs parent with
  | .err => none
  | .timeout => none
  | .ok hist =>
    match runAttempts (isThinkQ question) att with
    | (evs, none) => some ⟨evs, paper, [], streamReq paper question cfg resolve hist⟩
    | (evs, some (ft, fa)) =>
      if fa != "" || ft != "" then
        some ⟨evs, streamAppended paper question parent ft fa,
          [streamAppended paper question parent ft fa],
          streamReq paper question cfg resolve hist⟩
      else
        some ⟨evs, paper, [], streamReq paper question cfg resolve hist⟩

structure SyncRun where
  paper : Paper
  saves : List Paper
  req : ModelRequest
  answer : Option String
deriving Repr, DecidableEq

/-- DeepSeekAnalyzer.ask_custom_question (analyzer.py lines 359-462): the
synchronous variant. Note: no reasoning-marker handling, no conversation
threading, no retry; on a raised call (`llm = none`) the exception
propagates and nothing is persisted, on success the entry is always
persisted. -/
def ask_custom_question (paper : Paper) (question : String) (cfg : Config)
    (resolve : String → Option Paper) (llm : Option String) : SyncRun :=
  let ids := extractArxivIds question
  let refs := ids.filterMap resolve
  let pfx := if refs.isEmpty then cachePfx paper else buildRefContext paper refs
  let finalQ := if refs.isEmpty then question else replaceIds question (idTitlePairs resolve ids)
  let req : ModelRequest :=
    ⟨cfg.model, pfx, finalQ, [], buildMessages cfg.system_prompt [] pfx finalQ⟩
  match llm with
  | none => ⟨paper, [], req, none⟩
  | some a =>
    let p' := { paper with qa_pairs := paper.qa_pairs ++
      [{ question := question, answer := a }] }
    ⟨p', [p'], req, some a⟩

lemma negScan_append (s : String) (ks1 : List String) (kw : String) (ks2 : List String)
    (hnone : ∀ k ∈ ks1, strHasSub s (strLower k) = false)
    (hkw : strHasSub s (strLower kw) = true) :
    negScan s (ks1 ++ kw :: ks2) = some kw := by
  induction ks1 with
  | nil => simp [negScan, hkw]
  | cons k rest ih =>
    have hk : strHasSub s (strLower k) = false := hnone k (by simp)
    simp only [List.cons_append, negScan, hk]
    simp only [Bool.false_eq_true, if_false]
    exact ih (fun k' hk' => hnone k' (by simp [hk']))

lemma stage2Questions_paper (pfx : String) (ask : Nat → Option String)
    (qs : List String) : ∀ (p : Paper) (k : Nat),
    (stage2Questions pfx ask p k qs).paper =
      { p with qa_pairs := p.qa_pairs ++ answeredEntries ask k qs } := by
  induction qs with
  | nil => intro p k; simp [stage2Questions, answeredEntries]
  | cons q rest ih =>
    intro p k
    simp only [stage2Questions, answeredEntries]
    cases h : ask k with
    | none => simp
    | some a => simp [ih, List.append_assoc]

lemma stage2Questions_ok (pfx : String) (ask : Nat → Option String)
    (qs : List String) : ∀ (p : Paper) (k : Nat),
    (stage2Questions pfx ask p k qs).ok = true ↔
      ∀ j, j < qs.length → (ask (k + j)).isSome := by
  induction qs with
  | nil => intro p k; simp [stage2Questions]
  | cons q rest ih =>
    intro p k
    simp only [stage2Questions]
    cases h : ask k with
    | none =>
      simp only [List.length_cons]
      constructor
      · intro hfalse; exact absurd hfalse (by simp)
      · intro hall
        have := hall 0 (Nat.succ_pos _)
        rw [Nat.add_zero, h] at this
        simp at this
    | some a =>
      rw [ih]
      constructor
      · intro hall j hj
        cases j with
        | zero => rw [Nat.add_zero, h]; simp
        | succ j' =>
          have := hall j' (by simpa using Nat.lt_of_succ_lt_succ hj)
          have harr : k + 1 + j' = k + (j' + 1) := by omega
          rwa [harr] at this
      · intro hall j hj
        have := hall (j + 1) (by simpa using Nat.succ_lt_succ hj)
        have harr : k + (j + 1) = k + 1 + j := by omega
        rwa [harr] at this

lemma stage2Questions_reqs (pfx : String) (ask : Nat → Option String)
    (qs : List String) : ∀ (p : Paper) (k : Nat),
    ∀ r ∈ (stage2Questions pfx ask p k qs).reqs, r.1 = pfx := by
  induction qs with
  | nil => intro p k r hr; simp [stage2Questions] at hr
  | cons q rest ih =>
    intro p k r hr
    simp only [stage2Questions] at hr
    cases h : ask k with
    | none => rw [h] at hr; simp at hr; simp [hr]
    | some a =>
      rw [h] at hr
      simp only [List.mem_cons] at hr
      rcases hr with hr | hr
      · rw [hr]
      · exact ih _ _ r hr

lemma answeredEntries_len_all (ask : Nat → Option String) (qs : List String) :
    ∀ k, (∀ j, j < qs.length → (ask (k + j)).isSome) →
    (answeredEntries ask k qs).length = qs.length := by
  induction qs with
  | nil => intro k _; simp [answeredEntries]
  | cons q rest ih =>
    intro k hall
    have h0 : (ask k).isSome := by
      have := hall 0 (Nat.succ_pos _); rwa [Nat.add_zero] at this
    rcases Option.isSome_iff_exists.mp h0 with ⟨a, ha⟩
    simp only [answeredEntries, ha, List.length_cons]
    rw [ih (k + 1) (fun j hj => by
      have := hall (j + 1) (by simpa using Nat.succ_lt_succ hj)
      have harr : k + (j + 1) = k + 1 + j := by omega
      rwa [harr] at this)]

lemma answeredEntries_len_partial (ask : Nat → Option String) (qs : List String) :
    ∀ k m, m < qs.length → (∀ j, j < m → (ask (k + j)).isSome) →
    ask (k + m) = none → (answeredEntries ask k qs).length = m := by
  induction qs with
  | nil => intro k m hm; simp at hm
  | cons q rest ih =>
    intro k m hm hpre hfail
    cases m with
    | zero =>
      rw [Nat.add_zero] at hfail
      simp [answeredEntries, hfail]
    | succ m' =>
      have h0 : (ask k).isSome := by
        have := hpre 0 (Nat.succ_pos _); rwa [Nat.add_zero] at this
      rcases Option.isSome_iff_exists.mp h0 with ⟨a, ha⟩
      simp only [answeredEntries, ha, List.length_cons]
      rw [ih (k + 1) m' (by simpa using Nat.lt_of_succ_lt_succ hm)
        (fun j hj => by
          have := hpre (j + 1) (by simpa using Nat.succ_lt_succ hj)
          have harr : k + (j + 1) = k + 1 + j := by omega
          rwa [harr] at this)
        (by
          have harr : k + (m' + 1) = k + 1 + m' := by omega
          rwa [harr] at hfail)]

lemma stage2_qa_eq_none (paper : Paper) (cfg : Config) (ask : Nat → Option String)
    (hrel : paper.is_relevant = some true) (h0 : ask 0 = none) :
    stage2_qa paper cfg ask = ⟨paper, [], [(cachePfx paper, detailedSummaryQ)], false⟩ := by
  have hc : (paper.is_relevant == some true) = true := by rw [hrel]; rfl
  simp only [stage2_qa, hc, if_true, h0]

lemma stage2_qa_eq_some (paper : Paper) (cfg : Config) (ask : Nat → Option String)
    (s : String) (hrel : paper.is_relevant = some true) (h0 : ask 0 = some s) :
    stage2_qa paper cfg ask =
      ⟨(stage2Questions (cachePfx paper) ask { paper with detailed_summary := s }
          1 cfg.preset_questions).paper,
       if (stage2Questions (cachePfx paper) ask { paper with detailed_summary := s }
            1 cfg.preset_questions).ok then
         [(stage2Questions (cachePfx paper) ask { paper with detailed_summary := s }
            1 cfg.preset_questions).paper]
       else [],
       (cachePfx paper, detailedSummaryQ) ::
         (stage2Questions (cachePfx paper) ask { paper with detailed_summary := s }
           1 cfg.preset_questions).reqs,
       (stage2Questions (cachePfx paper) ask { paper with detailed_summary := s }
         1 cfg.preset_questions).ok⟩ := by
  have hc : (paper.is_relevant == some true) = true := by rw [hrel]; rfl
  simp only [stage2_qa, hc, if_true, h0]

lemma stage2_saves_empty_iff (paper : Paper) (cfg : Config) (ask : Nat → Option String)
    (hrel : paper.is_relevant = some true) :
    (stage2_qa paper cfg ask).saves = [] ↔
      ask 0 = none ∨ ∃ m, m < cfg.preset_questions.length ∧ ask (m + 1) = none := by
  cases h0 : ask 0 with
  | none => rw [stage2_qa_eq_none paper cfg ask hrel h0]; simp
  | some s =>
    rw [stage2_qa_eq_some paper cfg ask s hrel h0]
    simp only [Option.some_ne_none, false_or]
    constructor
    · intro hempty
      by_cases hok : (stage2Questions (cachePfx paper) ask
          { paper with detailed_summary := s } 1 cfg.preset_questions).ok = true
      · rw [if_pos hok] at hempty; simp at hempty
      · rw [stage2Questions_ok] at hok
        push_neg at hok
        rcases hok with ⟨j, hj, hnone⟩
        refine ⟨j, hj, ?_⟩
        rw [Nat.add_comm 1 j] at hnone
        exact Option.not_isSome_iff_eq_none.mp (by simpa using hnone)
    · rintro ⟨m, hm, hnone⟩
      have hok : (stage2Questions (cachePfx paper) ask
          { paper with detailed_summary := s } 1 cfg.preset_questions).ok ≠ true := by
        intro hEq
        rw [stage2Questions_ok] at hEq
        have := hEq m hm
        rw [Nat.add_comm 1 m, hnone] at this
        simp at this
      simp only [if_neg hok]

/-- Claim C1: Deep-Analysis (stage2_qa) is all-or-nothing with respect to the
store: for a record entering the stage, if the detailed-summary call
(call 0) or any preset-question call (call m+1) fails terminally, nothing
is saved and the stored record is unchanged; the record is saved exactly
when the summary and all N questions succeed, and then the single save
carries the summary and all N appended QAPairs. -/
theorem stage2_all_or_nothing (paper : Paper) (cfg : Config) (ask : Nat → Option String)
    (store : Option Paper) (hrel : paper.is_relevant = some true) :
    ((stage2_qa paper cfg ask).saves = [] ↔
      ask 0 = none ∨ ∃ m, m < cfg.preset_questions.length ∧ ask (m + 1) = none) ∧
    ((stage2_qa paper cfg ask).saves = [] →
      applySaves store (stage2_qa paper cfg ask).saves = store) ∧
    ((ask 0).isSome ∧ (∀ m, m < cfg.preset_questions.length → (ask (m + 1)).isSome) →
      (stage2_qa paper cfg ask).saves = [(stage2_qa paper cfg ask).paper] ∧
      (stage2_qa paper cfg ask).paper.qa_pairs =
        paper.qa_pairs ++ answeredEntries ask 1 cfg.preset_questions ∧
      (stage2_qa paper cfg ask).paper.qa_pairs.length =
        paper.qa_pairs.length + cfg.preset_questions.length ∧
      (stage2_qa paper cfg ask).paper.detailed_summary = (ask 0).getD ("")) := by
  refine ⟨stage2_saves_empty_iff paper cfg ask hrel, ?_, ?_⟩
  · intro hempty; rw [hempty]; rfl
  · rintro ⟨h0, hall⟩
    rcases Option.isSome_iff_exists.mp h0 with ⟨s, hs⟩
    have hall' : ∀ j, j < cfg.preset_questions.length → (ask (1 + j)).isSome := by
      intro j hj
      have := hall j hj
      rwa [Nat.add_comm j 1] at this
    have hok : (stage2Questions (cachePfx paper) ask
        { paper with detailed_summary := s } 1 cfg.preset_questions).ok = true := by
      rw [stage2Questions_ok]; exact hall'
    have hpaper := stage2Questions_paper (cachePfx paper) ask cfg.preset_questions
      { paper with detailed_summary := s } 1
    rw [stage2_qa_eq_some paper cfg ask s hrel hs]
    simp only [hok, if_true]
    refine ⟨trivial, ?_, ?_, ?_⟩
    · rw [hpaper]
    · rw [hpaper]
      simp [answeredEntries_len_all ask cfg.preset_questions 1 hall']
    · rw [hpaper]
      simp [hs]

def exPaper : Paper :=
  { id := "2401.00001", title := "Title", abstract := "Abs", is_relevant := some true }

def exCfg2 : Config := { preset_questions := ["Q1", "Q2"] }

def exAskOk : Nat → Option String := fun _ => some ("ans")

/-- Witness for C1 at a concrete relevant record with two preset questions. -/
theorem stage2_all_or_nothing_witness :
    exPaper.is_relevant = some true ∧
    (((stage2_qa exPaper exCfg2 exAskOk).saves = [] ↔
      exAskOk 0 = none ∨ ∃ m, m < exCfg2.preset_questions.length ∧ exAskOk (m + 1) = none) ∧
    ((stage2_qa exPaper exCfg2 exAskOk).saves = [] →
      applySaves none (stage2_qa exPaper exCfg2 exAskOk).saves = none) ∧
    ((exAskOk 0).isSome ∧
        (∀ m, m < exCfg2.preset_questions.length → (exAskOk (m + 1)).isSome) →
      (stage2_qa exPaper exCfg2 exAskOk).saves = [(stage2_qa exPaper exCfg2 exAskOk).paper] ∧
      (stage2_qa exPaper exCfg2 exAskOk).paper.qa_pairs =
        exPaper.qa_pairs ++ answeredEntries exAskOk 1 exCfg2.preset_questions ∧
      (stage2_qa exPaper exCfg2 exAskOk).paper.qa_pairs.length =
        exPaper.qa_pairs.length + exCfg2.preset_questions.length ∧
      (stage2_qa exPaper exCfg2 exAskOk).paper.detailed_summary = (exAskOk 0).getD (""))) :=
  ⟨rfl, stage2_all_or_nothing exPaper exCfg2 exAskOk none rfl⟩

/-- Claim C3: every request stage2_qa issues (the summary request and each
preset-question request) carries the byte-identical context block
`cachePfx paper`, and the full user message is that shared block followed
by only the trailing question text. -/
theorem stage2_cache_pfx_invariant (paper : Paper) (cfg : Config)
    (ask : Nat → Option String) (hrel : paper.is_relevant = some true) :
    (stage2_qa paper cfg ask).reqs ≠ [] ∧
    ∀ r ∈ (stage2_qa paper cfg ask).reqs,
      r.1 = cachePfx paper ∧
      userMsgText r.1 r.2 = cachePfx paper ++ ("\n\nQuestion: " ++ r.2) := by
  have hmain : ∀ r ∈ (stage2_qa paper cfg ask).reqs, r.1 = cachePfx paper := by
    intro r hr
    cases h0 : ask 0 with
    | none =>
      rw [stage2_qa_eq_none paper cfg ask hrel h0] at hr
      simp at hr; simp [hr]
    | some s =>
      rw [stage2_qa_eq_some paper cfg ask s hrel h0] at hr
      simp only [List.mem_cons] at hr
      rcases hr with hr | hr
      · simp [hr]
      · exact stage2Questions_reqs (cachePfx paper) ask cfg.preset_questions _ _ r hr
  refine ⟨?_, fun r hr => ⟨hmain r hr, ?_⟩⟩
  · cases h0 : ask 0 with
    | none => rw [stage2_qa_eq_none paper cfg ask hrel h0]; simp
    | some s => rw [stage2_qa_eq_some paper cfg ask s hrel h0]; simp
  · rw [hmain r hr, userMsgText, String.append_assoc]

/-- Witness for C3 at a concrete relevant record. -/
theorem stage2_cache_pfx_invariant_witness :
    exPaper.is_relevant = some true ∧
    ((stage2_qa exPaper exCfg2 exAskOk).reqs ≠ [] ∧
    ∀ r ∈ (stage2_qa exPaper exCfg2 exAskOk).reqs,
      r.1 = cachePfx exPaper ∧
      userMsgText r.1 r.2 = cachePfx exPaper ++ ("\n\nQuestion: " ++ r.2)) :=
  ⟨rfl, stage2_cache_pfx_invariant exPaper exCfg2 exAskOk rfl⟩

/-- Claim C10: when stage2_qa fails terminally partway through (summary
succeeded, preset question m failed after questions 0..m-1 succeeded),
the in-memory record it returns is still mutated — it carries the new
detailed summary and the QAPairs for the m answered questions — while
nothing is persisted. -/
theorem stage2_partial_failure_mutation (paper : Paper) (cfg : Config)
    (ask : Nat → Option String) (s : String) (m : Nat)
    (hrel : paper.is_relevant = some true)
    (h0 : ask 0 = some s)
    (hm : m < cfg.preset_questions.length)
    (hpre : ∀ j, j < m → (ask (j + 1)).isSome)
    (hfail : ask (m + 1) = none) :
    (stage2_qa paper cfg ask).saves = [] ∧
    (stage2_qa paper cfg ask).paper.detailed_summary = s ∧
    (stage2_qa paper cfg ask).paper.qa_pairs =
      paper.qa_pairs ++ answeredEntries ask 1 cfg.preset_questions ∧
    (answeredEntries ask 1 cfg.preset_questions).length = m := by
  have hlen : (answeredEntries ask 1 cfg.preset_questions).length = m := by
    refine answeredEntries_len_partial ask cfg.preset_questions 1 m hm ?_ ?_
    · intro j hj
      have := hpre j hj
      rwa [Nat.add_comm j 1] at this
    · rwa [Nat.add_comm 1 m]
  have hempty : (stage2_qa paper cfg ask).saves = [] := by
    rw [stage2_saves_empty_iff paper cfg ask hrel]
    exact Or.inr ⟨m, hm, hfail⟩
  have hpaper := stage2Questions_paper (cachePfx paper) ask cfg.preset_questions
    { paper with detailed_summary := s } 1
  rw [stage2_qa_eq_some paper cfg ask s hrel h0] at hempty ⊢
  refine ⟨hempty, ?_, ?_, hlen⟩
  · simp only [hpaper]
  · simp only [hpaper]

def exAskPart : Nat → Option String :=
  fun n => if n == 0 then some ("S") else if n == 1 then some ("A1") else none

/-- Witness for C10: summary and question 1 succeed, question 2 fails. -/
theorem stage2_partial_failure_mutation_witness :
    exPaper.is_relevant = some true ∧ exAskPart 0 = some ("S") ∧
    1 < exCfg2.preset_questions.length ∧ (∀ j, j < 1 → (exAskPart (j + 1)).isSome) ∧
    exAskPart (1 + 1) = none ∧
    ((stage2_qa exPaper exCfg2 exAskPart).saves = [] ∧
    (stage2_qa exPaper exCfg2 exAskPart).paper.detailed_summary = "S" ∧
    (stage2_qa exPaper exCfg2 exAskPart).paper.qa_pairs =
      exPaper.qa_pairs ++ answeredEntries exAskPart 1 exCfg2.preset_questions ∧
    (answeredEntries exAskPart 1 exCfg2.preset_questions).length = 1) :=
  ⟨rfl, rfl, by decide, by decide, rfl,
    stage2_partial_failure_mutation exPaper exCfg2 exAskPart ("S") 1 rfl rfl
      (by decide) (by decide) rfl⟩

/-- Counterexample for C2: the fast path labels the keyword entry with the
CROSS MARK character "❌" (analyzer.py line 56), not the "✗" the claim
states. -/
def cexPaperMed : Paper :=
  { id := "2401.00002", title := "A medical study", abstract := "Abs" }

def cexCfgMed : Config := { negative_keywords := ["medical"] }

def cexAttNone : Nat → Option Stage1Result := fun _ => none

/-- C2 counterexample: at a record matching the negative keyword "medical",
the produced keyword entry is "❌ medical", not "✗ medical". -/
theorem stage1_neg_marker_cex :
    (stage1_filter cexPaperMed cexCfgMed cexAttNone).paper.extracted_keywords =
      ["❌ medical"] ∧
    (stage1_filter cexPaperMed cexCfgMed cexAttNone).paper.extracted_keywords ≠
      ["✗ medical"] := by
  constructor
  · rfl
  · decide

/-- Claim C2 (amended: the keyword marker is "❌", not "✗"): whenever some
configured negative keyword occurs (case-insensitively) in title+preview,
stage1_filter takes the first matching keyword, sets is_relevant=false,
relevance_score=1.0, extracted_keywords=["❌ kw"] and the canned summary
naming kw, saves the record, and returns with zero model calls whatever
the LLM oracle would have produced. -/
theorem stage1_neg_fast_path (paper : Paper) (cfg : Config)
    (att : Nat → Option Stage1Result) (ks1 : List String) (kw : String)
    (ks2 : List String)
    (hsplit : cfg.negative_keywords = ks1 ++ kw :: ks2)
    (hnomatch : ∀ k ∈ ks1, strHasSub (searchableText paper) (strLower k) = false)
    (hmatch : strHasSub (searchableText paper) (strLower kw) = true) :
    (stage1_filter paper cfg att).modelCalls = 0 ∧
    (stage1_filter paper cfg att).paper.is_relevant = some false ∧
    (stage1_filter paper cfg att).paper.relevance_score = 1 ∧
    (stage1_filter paper cfg att).paper.extracted_keywords = ["❌ " ++ kw] ∧
    (stage1_filter paper cfg att).paper.one_line_summary =
      "论文包含负面关键词「" ++ kw ++ "」，自动标记为不相关" ∧
    (stage1_filter paper cfg att).saves = [(stage1_filter paper cfg att).paper] := by
  have hscan : negScan (searchableText paper) cfg.negative_keywords = some kw := by
    rw [hsplit]
    exact negScan_append (searchableText paper) ks1 kw ks2 hnomatch hmatch
  simp only [stage1_filter, hscan]
  simp [stage1Demote]

/-- Witness for C2 (amended) at a concrete record and keyword list with a
non-matching keyword before the matching one. -/
def cexCfgMed2 : Config := { negative_keywords := ["quantum", "medical"] }

theorem stage1_neg_fast_path_witness :
    cexCfgMed2.negative_keywords = ["quantum"] ++ "medical" :: [] ∧
    (∀ k ∈ ["quantum"], strHasSub (searchableText cexPaperMed) (strLower k) = false) ∧
    strHasSub (searchableText cexPaperMed) (strLower ("medical")) = true ∧
    ((stage1_filter cexPaperMed cexCfgMed2 cexAttNone).modelCalls = 0 ∧
    (stage1_filter cexPaperMed cexCfgMed2 cexAttNone).paper.is_relevant = some false ∧
    (stage1_filter cexPaperMed cexCfgMed2 cexAttNone).paper.relevance_score = 1 ∧
    (stage1_filter cexPaperMed cexCfgMed2 cexAttNone).paper.extracted_keywords =
      ["❌ " ++ "medical"] ∧
    (stage1_filter cexPaperMed cexCfgMed2 cexAttNone).paper.one_line_summary =
      "论文包含负面关键词「" ++ "medical" ++ "」，自动标记为不相关" ∧
    (stage1_filter cexPaperMed cexCfgMed2 cexAttNone).saves =
      [(stage1_filter cexPaperMed cexCfgMed2 cexAttNone).paper]) :=
  ⟨rfl, by decide, by decide,
    stage1_neg_fast_path cexPaperMed cexCfgMed2 cexAttNone ["quantum"] "medical" []
      rfl (by decide) (by decide)⟩

def cexPaperPlain : Paper := { id := "2401.00003", title := "Plain", abstract := "Abs" }

def cexCfgEmpty : Config := {}

def cexAtt15 : Nat → Option Stage1Result :=
  fun _ => some { is_relevant := true, relevance_score := 15 }

/-- C4 counterexample: the Stage-1 LLM path stores the parsed score without
clamping — a judgment of 15 is persisted as 15, outside [0, 10]. -/
theorem stage1_no_clamp_cex :
    (stage1_filter cexPaperPlain cexCfgEmpty cexAtt15).paper.relevance_score = 15 ∧
    ¬ ((stage1_filter cexPaperPlain cexCfgEmpty cexAtt15).paper.relevance_score ≤ 10) ∧
    (stage1_filter cexPaperPlain cexCfgEmpty cexAtt15).saves =
      [(stage1_filter cexPaperPlain cexCfgEmpty cexAtt15).paper] := by
  decide

/-- Claim C4 (amended: only the manual update clamps): the manual relevance
update clamps its score into [0, 10]; a negative-keyword match forces the
score to exactly 1.0 with is_relevant = false and zero model calls, taking
precedence over any LLM judgment; the Stage-1 LLM parsing path stores the
parsed score unclamped (see the counterexample). -/
theorem relevance_score_policy (p : Paper) (b : Bool) (s : Rat)
    (paper : Paper) (cfg : Config) (att : Nat → Option Stage1Result) (kw : String)
    (hkw : negScan (searchableText paper) cfg.negative_keywords = some kw) :
    0 ≤ (update_relevance p b s).relevance_score ∧
    (update_relevance p b s).relevance_score ≤ 10 ∧
    (stage1_filter paper cfg att).paper.relevance_score = 1 ∧
    (stage1_filter paper cfg att).paper.is_relevant = some false ∧
    (stage1_filter paper cfg att).modelCalls = 0 := by
  refine ⟨?_, ?_, ?_, ?_, ?_⟩
  · exact le_max_left 0 _
  · exact max_le (by norm_num) (min_le_left 10 s)
  · simp only [stage1_filter, hkw]; rfl
  · simp only [stage1_filter, hkw]; rfl
  · simp only [stage1_filter, hkw]

/-- Witness for C4 (amended): a manual update with an out-of-range score and
a concrete negative-keyword match. -/
theorem relevance_score_policy_witness :
    negScan (searchableText cexPaperMed) cexCfgMed.negative_keywords = some ("medical") ∧
    (0 ≤ (update_relevance cexPaperPlain true 42).relevance_score ∧
    (update_relevance cexPaperPlain true 42).relevance_score ≤ 10 ∧
    (stage1_filter cexPaperMed cexCfgMed cexAttNone).paper.relevance_score = 1 ∧
    (stage1_filter cexPaperMed cexCfgMed cexAttNone).paper.is_relevant = some false ∧
    (stage1_filter cexPaperMed cexCfgMed cexAttNone).modelCalls = 0) :=
  ⟨by decide,
    relevance_score_policy cexPaperPlain true 42 cexPaperMed cexCfgMed cexAttNone
      ("medical") (by decide)⟩

def cexPaperRel : Paper :=
  { id := "2401.00004", title := "A medical study", abstract := "Abs",
    is_relevant := some true, relevance_score := 8,
    extracted_keywords := ["transformer"] }

/-- C7 counterexample: on a record that already carries extracted keywords,
the re-filter sweep prepends the marker entry to them, while the stage-1
fast path replaces the whole list — the resulting extracted_keywords
differ, so the sweep does not demote "exactly as" the fast path. -/
theorem recheck_keywords_cex :
    (recheck_negative_keywords 6 ["medical"] [cexPaperRel]).map
      Paper.extracted_keywords = [["❌ medical", "transformer"]] ∧
    (stage1_filter cexPaperRel cexCfgMed cexAttNone).paper.extracted_keywords =
      ["❌ medical"] ∧
    ¬ ((recheck_negative_keywords 6 ["medical"] [cexPaperRel]).map
        Paper.extracted_keywords =
      [(stage1_filter cexPaperRel cexCfgMed cexAttNone).paper.extracted_keywords]) := by
  decide

/-- Claim C7 (amended: extracted_keywords get the marker entry PREPENDED to
the existing list rather than replacing it): the re-filter sweep touches
exactly the records with is_relevant = true and score >= threshold that
match a keyword; each demotion agrees with the stage-1 fast path on
is_relevant, relevance_score and the one-line summary, but prepends the
marker entry to the prior extracted keywords, and is persisted. -/
theorem recheck_demotion (minScore : Rat) (negKws : List String)
    (papers : List Paper) :
    (∀ p' ∈ recheck_negative_keywords minScore negKws papers,
      ∃ p ∈ papers, ∃ kw,
        p.is_relevant = some true ∧ minScore ≤ p.relevance_score ∧
        negScan (searchableText p) negKws = some kw ∧
        p' = recheckDemote p kw ∧
        p'.is_relevant = (stage1Demote p kw).is_relevant ∧
        p'.relevance_score = (stage1Demote p kw).relevance_score ∧
        p'.one_line_summary = (stage1Demote p kw).one_line_summary ∧
        p'.extracted_keywords = ("❌ " ++ kw) :: p.extracted_keywords) ∧
    (∀ p ∈ papers, ∀ kw, p.is_relevant = some true →
      minScore ≤ p.relevance_score →
      negScan (searchableText p) negKws = some kw →
      recheckDemote p kw ∈ recheck_negative_keywords minScore negKws papers) := by
  constructor
  · intro p' hp'
    simp only [recheck_negative_keywords, List.mem_filterMap, List.mem_filter] at hp'
    rcases hp' with ⟨p, ⟨hpmem, hcond⟩, hmap⟩
    rcases Option.map_eq_some'.mp hmap with ⟨kw, hscan, hdem⟩
    rcases Bool.and_eq_true _ _ |>.mp hcond with ⟨hc1, hc2⟩
    have h1 : p.is_relevant = some true := by simpa using hc1
    have h2 : minScore ≤ p.relevance_score := of_decide_eq_true hc2
    subst hdem
    exact ⟨p, hpmem, kw, h1, h2, hscan, rfl, rfl, rfl, rfl, rfl⟩
  · intro p hp kw h1 h2 hscan
    simp only [recheck_negative_keywords, List.mem_filterMap, List.mem_filter]
    exact ⟨p, ⟨hp, by simp [h1, h2]⟩, by rw [hscan]; rfl⟩

/-- Witness for C7 (amended) at a concrete store with one matching record. -/
theorem recheck_demotion_witness :
    (∀ p' ∈ recheck_negative_keywords 6 ["medical"] [cexPaperRel],
      ∃ p ∈ [cexPaperRel], ∃ kw,
        p.is_relevant = some true ∧ (6 : Rat) ≤ p.relevance_score ∧
        negScan (searchableText p) ["medical"] = some kw ∧
        p' = recheckDemote p kw ∧
        p'.is_relevant = (stage1Demote p kw).is_relevant ∧
        p'.relevance_score = (stage1Demote p kw).relevance_score ∧
        p'.one_line_summary = (stage1Demote p kw).one_line_summary ∧
        p'.extracted_keywords = ("❌ " ++ kw) :: p.extracted_keywords) ∧
    (∀ p ∈ [cexPaperRel], ∀ kw, p.is_relevant = some true →
      (6 : Rat) ≤ p.relevance_score →
      negScan (searchableText p) ["medical"] = some kw →
      recheckDemote p kw ∈ recheck_negative_keywords 6 ["medical"] [cexPaperRel]) :=
  recheck_demotion 6 ["medical"] [cexPaperRel]

lemma runAttempts_fail3 (isr : Bool) (att : Nat → List Delta × Option String)
    (e0 e1 e2 : String) (h0 : (att 0).2 = some e0) (h1 : (att 1).2 = some e1)
    (h2 : (att 2).2 = some e2) :
    runAttempts isr att =
      (attemptEvents isr (att 0).1 ++ [StreamEvent.error (transientMsg 1)] ++
        attemptEvents isr (att 1).1 ++ [StreamEvent.error (transientMsg 2)] ++
        attemptEvents isr (att 2).1 ++ [StreamEvent.error (terminalMsg e2)], none) := by
  simp only [runAttempts, h0, h1, h2]

lemma runAttempts_succAt2 (isr : Bool) (att : Nat → List Delta × Option String)
    (e0 e1 : String) (h0 : (att 0).2 = some e0) (h1 : (att 1).2 = some e1)
    (h2 : (att 2).2 = none) :
    runAttempts isr att =
      (attemptEvents isr (att 0).1 ++ [StreamEvent.error (transientMsg 1)] ++
        attemptEvents isr (att 1).1 ++ [StreamEvent.error (transientMsg 2)] ++
        attemptEvents isr (att 2).1,
        some (accumThinking (streamChunks isr (att 2).1),
          accumAnswer (streamChunks isr (att 2).1))) := by
  simp only [runAttempts, h0, h1, h2]

/-- C5 counterexample: a stream whose first attempt completes successfully
but delivers no content/thinking chunks persists no QAEntry at all — the
claim's "when a stream fully succeeds it persists exactly one QAEntry"
fails at this input. -/
def resolveNone : String → Option Paper := fun _ => none

def attEmptyOk : Nat → List Delta × Option String := fun _ => ([], none)

theorem stream_empty_success_cex :
    (attEmptyOk 0).2 = none ∧
    (ask_custom_question_stream exPaper ("hello") cexCfgEmpty none resolveNone
      attEmptyOk).map StreamRun.saves = some [] ∧
    (ask_custom_question_stream exPaper ("hello") cexCfgEmpty none resolveNone
      attEmptyOk).map StreamRun.paper = some exPaper ∧
    (ask_custom_question_stream exPaper ("hello") cexCfgEmpty none resolveNone
      attEmptyOk).map StreamRun.events = some [] :=
  ⟨rfl, rfl, rfl, rfl⟩

/-- Claim C5 (amended: on a fully successful stream the QAEntry is persisted
only when the accumulated answer or thinking is non-empty): up to 3 stream
attempts; each of the first two failures emits its delivered chunks
followed by a transient error event naming the 1s / 2s backoff; a third
failure appends the terminal error event and persists nothing, leaving the
record unchanged; a success on the final attempt accumulates from that
attempt's chunks alone (restart from empty) and, when non-empty, persists
exactly one QAEntry with the original unstripped question, the accumulated
answer, the thinking only in reasoning mode, the reasoning flag and the
supplied parent position. -/
theorem stream_retry_persistence (paper : Paper) (q : String) (cfg : Config)
    (parent : Option Int) (resolve : String → Option Paper)
    (att : Nat → List Delta × Option String) (hist : List (String × String))
    (hh : historyFor paper.qa_pairs parent = WalkResult.ok hist) :
    (∀ e0 e1 e2, (att 0).2 = some e0 → (att 1).2 = some e1 → (att 2).2 = some e2 →
      ask_custom_question_stream paper q cfg parent resolve att =
        some ⟨attemptEvents (isThinkQ q) (att 0).1 ++
            [StreamEvent.error (transientMsg 1)] ++
            attemptEvents (isThinkQ q) (att 1).1 ++
            [StreamEvent.error (transientMsg 2)] ++
            attemptEvents (isThinkQ q) (att 2).1 ++
            [StreamEvent.error (terminalMsg e2)],
          paper, [], streamReq paper q cfg resolve hist⟩) ∧
    (∀ e0 e1, (att 0).2 = some e0 → (att 1).2 = some e1 → (att 2).2 = none →
      ((accumAnswer (streamChunks (isThinkQ q) (att 2).1) != "" ||
        accumThinking (streamChunks (isThinkQ q) (att 2).1) != "") = true →
      ask_custom_question_stream paper q cfg parent resolve att =
        some ⟨attemptEvents (isThinkQ q) (att 0).1 ++
            [StreamEvent.error (transientMsg 1)] ++
            attemptEvents (isThinkQ q) (att 1).1 ++
            [StreamEvent.error (transientMsg 2)] ++
            attemptEvents (isThinkQ q) (att 2).1,
          streamAppended paper q parent
            (accumThinking (streamChunks (isThinkQ q) (att 2).1))
            (accumAnswer (streamChunks (isThinkQ q) (att 2).1)),
          [streamAppended paper q parent
            (accumThinking (streamChunks (isThinkQ q) (att 2).1))
            (accumAnswer (streamChunks (isThinkQ q) (att 2).1))],
          streamReq paper q cfg resolve hist⟩) ∧
      streamAppended paper q parent
          (accumThinking (streamChunks (isThinkQ q) (att 2).1))
          (accumAnswer (streamChunks (isThinkQ q) (att 2).1)) =
        { paper with qa_pairs := paper.qa_pairs ++
          [{ question := q,
             answer := accumAnswer (streamChunks (isThinkQ q) (att 2).1),
             thinking := if isThinkQ q then
               some (accumThinking (streamChunks (isThinkQ q) (att 2).1)) else none,
             is_reasoning := isThinkQ q, parent_qa_id := parent }] }) := by
  constructor
  · intro e0 e1 e2 h0 h1 h2
    simp only [ask_custom_question_stream, hh,
      runAttempts_fail3 (isThinkQ q) att e0 e1 e2 h0 h1 h2]
  · intro e0 e1 h0 h1 h2
    refine ⟨?_, rfl⟩
    intro hcond
    simp only [ask_custom_question_stream, hh,
      runAttempts_succAt2 (isThinkQ q) att e0 e1 h0 h1 h2]
    rw [if_pos hcond]

def attFail3 : Nat → List Delta × Option String := fun _ => ([], some ("boom"))

def attSucc2 : Nat → List Delta × Option String :=
  fun n => if n == 2 then ([⟨none, some ("Hi")⟩], none) else ([], some ("boom"))

/-- Witness for C5 (amended): a terminal failure of all three attempts and a
success on the third attempt with non-empty content, both at concrete
inputs. -/
theorem stream_retry_persistence_witness :
    historyFor exPaper.qa_pairs none = WalkResult.ok [] ∧
    (∀ e0 e1 e2, (attFail3 0).2 = some e0 → (attFail3 1).2 = some e1 →
      (attFail3 2).2 = some e2 →
      ask_custom_question_stream exPaper ("hi") cexCfgEmpty none resolveNone attFail3 =
        some ⟨attemptEvents (isThinkQ ("hi")) (attFail3 0).1 ++
            [StreamEvent.error (transientMsg 1)] ++
            attemptEvents (isThinkQ ("hi")) (attFail3 1).1 ++
            [StreamEvent.error (transientMsg 2)] ++
            attemptEvents (isThinkQ ("hi")) (attFail3 2).1 ++
            [StreamEvent.error (terminalMsg e2)],
          exPaper, [], streamReq exPaper ("hi") cexCfgEmpty resolveNone []⟩) ∧
    (∀ e0 e1, (attSucc2 0).2 = some e0 → (attSucc2 1).2 = some e1 →
      (attSucc2 2).2 = none →
      ((accumAnswer (streamChunks (isThinkQ ("hi")) (attSucc2 2).1) != "" ||
        accumThinking (streamChunks (isThinkQ ("hi")) (attSucc2 2).1) != "") = true →
      ask_custom_question_stream exPaper ("hi") cexCfgEmpty none resolveNone attSucc2 =
        some ⟨attemptEvents (isThinkQ ("hi")) (attSucc2 0).1 ++
            [StreamEvent.error (transientMsg 1)] ++
            attemptEvents (isThinkQ ("hi")) (attSucc2 1).1 ++
            [StreamEvent.error (transientMsg 2)] ++
            attemptEvents (isThinkQ ("hi")) (attSucc2 2).1,
          streamAppended exPaper ("hi") none
            (accumThinking (streamChunks (isThinkQ ("hi")) (attSucc2 2).1))
            (accumAnswer (streamChunks (isThinkQ ("hi")) (attSucc2 2).1)),
          [streamAppended exPaper ("hi") none
            (accumThinking (streamChunks (isThinkQ ("hi")) (attSucc2 2).1))
            (accumAnswer (streamChunks (isThinkQ ("hi")) (attSucc2 2).1))],
          streamReq exPaper ("hi") cexCfgEmpty resolveNone []⟩) ∧
      streamAppended exPaper ("hi") none
          (accumThinking (streamChunks (isThinkQ ("hi")) (attSucc2 2).1))
          (accumAnswer (streamChunks (isThinkQ ("hi")) (attSucc2 2).1)) =
        { exPaper with qa_pairs := exPaper.qa_pairs ++
          [{ question := "hi",
             answer := accumAnswer (streamChunks (isThinkQ ("hi")) (attSucc2 2).1),
             thinking := if isThinkQ ("hi") then
               some (accumThinking (streamChunks (isThinkQ ("hi")) (attSucc2 2).1))
               else none,
             is_reasoning := isThinkQ ("hi"), parent_qa_id := none }] }) :=
  ⟨rfl,
    (stream_retry_persistence exPaper ("hi") cexCfgEmpty none resolveNone attFail3 []
      rfl).1,
    (stream_retry_persistence exPaper ("hi") cexCfgEmpty none resolveNone attSucc2 []
      rfl).2⟩

lemma stream_cases (paper : Paper) (q : String) (cfg : Config)
    (parent : Option Int) (resolve : String → Option Paper)
    (att : Nat → List Delta × Option String) (hist : List (String × String))
    (hh : historyFor paper.qa_pairs parent = WalkResult.ok hist) :
    ask_custom_question_stream paper q cfg parent resolve att =
      (match (runAttempts (isThinkQ q) att).2 with
       | none => some ⟨(runAttempts (isThinkQ q) att).1, paper, [],
           streamReq paper q cfg resolve hist⟩
       | some (ft, fa) =>
         if fa != "" || ft != "" then
           some ⟨(runAttempts (isThinkQ q) att).1,
             streamAppended paper q parent ft fa,
             [streamAppended paper q parent ft fa],
             streamReq paper q cfg resolve hist⟩
         else
           some ⟨(runAttempts (isThinkQ q) att).1, paper, [],
             streamReq paper q cfg resolve hist⟩) := by
  simp only [ask_custom_question_stream, hh]
  rcases runAttempts (isThinkQ q) att with ⟨evs, res⟩
  cases res with
  | none => rfl
  | some pair => rcases pair with ⟨ft, fa⟩; rfl

/-- Claim C9: a streaming call that succeeds but accumulates an empty answer
and empty thinking persists no QAEntry and leaves the record unchanged;
conversely, any run that persisted something had a successful attempt with
a non-empty accumulated answer or thinking. -/
theorem stream_empty_no_persist (paper : Paper) (q : String) (cfg : Config)
    (parent : Option Int) (resolve : String → Option Paper)
    (att : Nat → List Delta × Option String) (hist : List (String × String))
    (hh : historyFor paper.qa_pairs parent = WalkResult.ok hist) :
    ((runAttempts (isThinkQ q) att).2 = some ("", "") →
      ask_custom_question_stream paper q cfg parent resolve att =
        some ⟨(runAttempts (isThinkQ q) att).1, paper, [],
          streamReq paper q cfg resolve hist⟩) ∧
    (∀ run, ask_custom_question_stream paper q cfg parent resolve att = some run →
      run.saves ≠ [] →
      ∃ ft fa, (runAttempts (isThinkQ q) att).2 = some (ft, fa) ∧
        (fa ≠ "" ∨ ft ≠ "")) := by
  constructor
  · intro hsucc
    rw [stream_cases paper q cfg parent resolve att hist hh, hsucc]
    rfl
  · intro run hrun hsaves
    rw [stream_cases paper q cfg parent resolve att hist hh] at hrun
    cases hres : (runAttempts (isThinkQ q) att).2 with
    | none =>
      rw [hres] at hrun
      have hr2 : some (⟨(runAttempts (isThinkQ q) att).1, paper, [],
          streamReq paper q cfg resolve hist⟩ : StreamRun) = some run := hrun
      rw [← Option.some_inj.mp hr2] at hsaves
      simp at hsaves
    | some pair =>
      rcases pair with ⟨ft, fa⟩
      refine ⟨ft, fa, rfl, ?_⟩
      by_cases hc : (fa != "" || ft != "") = true
      · rcases Bool.or_eq_true _ _ |>.mp hc with h | h
        · exact Or.inl (by simpa using h)
        · exact Or.inr (by simpa using h)
      · exfalso
        rw [hres] at hrun
        have hif : (if fa != "" || ft != "" then
            some (⟨(runAttempts (isThinkQ q) att).1,
              streamAppended paper q parent ft fa,
              [streamAppended paper q parent ft fa],
              streamReq paper q cfg resolve hist⟩ : StreamRun)
          else
            some ⟨(runAttempts (isThinkQ q) att).1, paper, [],
              streamReq paper q cfg resolve hist⟩) = some run := hrun
        rw [if_neg (by simpa using hc)] at hif
        rw [← Option.some_inj.mp hif] at hsaves
        simp at hsaves

def attEmptySucc2 : Nat → List Delta × Option String :=
  fun n => if n == 2 then ([⟨none, some ("")⟩, ⟨none, none⟩], none) else ([], some ("boom"))

/-- Witness for C9: a stream that succeeds on the third attempt with only
empty/absent payloads accumulates ("", "") and persists nothing. -/
theorem stream_empty_no_persist_witness :
    historyFor exPaper.qa_pairs none = WalkResult.ok [] ∧
    (runAttempts (isThinkQ ("hi")) attEmptySucc2).2 = some ("", "") ∧
    (((runAttempts (isThinkQ ("hi")) attEmptySucc2).2 = some ("", "") →
      ask_custom_question_stream exPaper ("hi") cexCfgEmpty none resolveNone
          attEmptySucc2 =
        some ⟨(runAttempts (isThinkQ ("hi")) attEmptySucc2).1, exPaper, [],
          streamReq exPaper ("hi") cexCfgEmpty resolveNone []⟩) ∧
    (∀ run, ask_custom_question_stream exPaper ("hi") cexCfgEmpty none resolveNone
        attEmptySucc2 = some run →
      run.saves ≠ [] →
      ∃ ft fa, (runAttempts (isThinkQ ("hi")) attEmptySucc2).2 = some (ft, fa) ∧
        (fa ≠ "" ∨ ft ≠ ""))) :=
  ⟨rfl, rfl,
    stream_empty_no_persist exPaper ("hi") cexCfgEmpty none resolveNone attEmptySucc2
      [] rfl⟩

/-- C6 counterexample: on a "think:"-prefixed question the synchronous
variant neither strips the marker nor switches model — the request it
issues carries the unstripped question under the configured chat model, so
the two variants do not perform identical reasoning-mode processing. -/
theorem sync_think_cex :
    isThinkQ ("think: Explain") = true ∧
    (ask_custom_question exPaper ("think: Explain") cexCfgEmpty resolveNone
      (some ("ans"))).req.q = "think: Explain" ∧
    (ask_custom_question exPaper ("think: Explain") cexCfgEmpty resolveNone
      (some ("ans"))).req.q ≠ effectiveQ ("think: Explain") ∧
    (ask_custom_question exPaper ("think: Explain") cexCfgEmpty resolveNone
      (some ("ans"))).req.mdl = "deepseek-chat" ∧
    (ask_custom_question exPaper ("think: Explain") cexCfgEmpty resolveNone
      (some ("ans"))).req.mdl ≠ "deepseek-reasoner" := by
  decide

/-- Claim C6 (amended: only the streaming variant handles the reasoning
marker): both variants share cross-reference extraction and context
assembly, but on a "think:"-prefixed question without references the
synchronous variant sends the question unchanged under the configured
model, while the streaming variant switches to deepseek-reasoner and
strips the marker from the question it sends. -/
theorem ask_variants_think_handling (paper : Paper) (q : String) (cfg : Config)
    (resolve : String → Option Paper) (llm : Option String)
    (att : Nat → List Delta × Option String)
    (hthink : isThinkQ q = true)
    (hids : extractArxivIds q = [])
    (hids2 : extractArxivIds (effectiveQ q) = []) :
    (ask_custom_question paper q cfg resolve llm).req.mdl = cfg.model ∧
    (ask_custom_question paper q cfg resolve llm).req.q = q ∧
    (ask_custom_question paper q cfg resolve llm).req.pfx = cachePfx paper ∧
    (∃ run, ask_custom_question_stream paper q cfg none resolve att = some run ∧
      run.req = streamReq paper q cfg resolve [] ∧
      run.req.mdl = "deepseek-reasoner" ∧
      run.req.q = strTrim (strDrop q 6) ∧
      run.req.pfx = cachePfx paper) := by
  have hsync : (ask_custom_question paper q cfg resolve llm).req =
      ⟨cfg.model, cachePfx paper, q, [],
        buildMessages cfg.system_prompt [] (cachePfx paper) q⟩ := by
    cases llm <;> simp [ask_custom_question, hids]
  have hreq1 : (streamReq paper q cfg resolve []).mdl = "deepseek-reasoner" := by
    simp [streamReq, hthink]
  have hreq2 : (streamReq paper q cfg resolve []).q = strTrim (strDrop q 6) := by
    simp only [streamReq, hids2, List.filterMap_nil, List.isEmpty_nil, if_true]
    simp [effectiveQ, hthink]
  have hreq3 : (streamReq paper q cfg resolve []).pfx = cachePfx paper := by
    simp [streamReq, hids2]
  have hcases := stream_cases paper q cfg none resolve att [] rfl
  refine ⟨by rw [hsync], by rw [hsync], by rw [hsync], ?_⟩
  rcases hres : (runAttempts (isThinkQ q) att).2 with _ | ⟨ft, fa⟩
  · refine ⟨⟨(runAttempts (isThinkQ q) att).1, paper, [],
      streamReq paper q cfg resolve []⟩, ?_, rfl, hreq1, hreq2, hreq3⟩
    rw [hcases, hres]
  · by_cases hc : (fa != "" || ft != "") = true
    · refine ⟨⟨(runAttempts (isThinkQ q) att).1,
        streamAppended paper q none ft fa, [streamAppended paper q none ft fa],
        streamReq paper q cfg resolve []⟩, ?_, rfl, hreq1, hreq2, hreq3⟩
      rw [hcases, hres]
      simp only [hc, if_true]
    · refine ⟨⟨(runAttempts (isThinkQ q) att).1, paper, [],
        streamReq paper q cfg resolve []⟩, ?_, rfl, hreq1, hreq2, hreq3⟩
      rw [hcases, hres]
      simp only [Bool.not_eq_true] at hc
      simp only [hc, Bool.false_eq_true, if_false]

/-- Witness for C6 (amended) at the concrete question "think: Explain". -/
theorem ask_variants_think_handling_witness :
    isThinkQ ("think: Explain") = true ∧
    extractArxivIds ("think: Explain") = [] ∧
    extractArxivIds (effectiveQ ("think: Explain")) = [] ∧
    ((ask_custom_question exPaper ("think: Explain") cexCfgEmpty resolveNone
        (some ("ans"))).req.mdl = cexCfgEmpty.model ∧
    (ask_custom_question exPaper ("think: Explain") cexCfgEmpty resolveNone
        (some ("ans"))).req.q = "think: Explain" ∧
    (ask_custom_question exPaper ("think: Explain") cexCfgEmpty resolveNone
        (some ("ans"))).req.pfx = cachePfx exPaper ∧
    (∃ run, ask_custom_question_stream exPaper ("think: Explain") cexCfgEmpty none
        resolveNone attSucc2 = some run ∧
      run.req = streamReq exPaper ("think: Explain") cexCfgEmpty resolveNone [] ∧
      run.req.mdl = "deepseek-reasoner" ∧
      run.req.q = strTrim (strDrop ("think: Explain") 6) ∧
      run.req.pfx = cachePfx exPaper)) :=
  ⟨rfl, rfl, rfl,
    ask_variants_think_handling exPaper ("think: Explain") cexCfgEmpty resolveNone
      (some ("ans")) attSucc2 rfl rfl rfl⟩

/-- The entry at position `k` (the default is irrelevant at in-range
positions). -/
def qaAt (qas : List QAPair) (k : Nat) : QAPair :=
  (qas.get? k).getD qaDefault

lemma pyGet_nat (l : List QAPair) (k : Nat) (hk : k < l.length) :
    pyGet l (k : Int) = l.get? k := by
  unfold pyGet
  rw [if_pos (Int.natCast_nonneg k), if_pos (by exact_mod_cast hk)]
  simp

lemma wfAux_get (l : List QAPair) : ∀ (b k : Nat) (qa : QAPair),
    wfAux b l = true → l.get? k = some qa → qaParentOkB (b + k) qa = true := by
  induction l with
  | nil => intro b k qa h hk; simp at hk
  | cons e rest ih =>
    intro b k qa h hk
    rcases Bool.and_eq_true _ _ |>.mp h with ⟨h1, h2⟩
    cases k with
    | zero =>
      simp only [List.get?] at hk
      injection hk with hk
      subst hk
      simpa using h1
    | succ k' =>
      simp only [List.get?] at hk
      have := ih (b + 1) k' qa h2 hk
      rwa [show b + 1 + k' = b + (k' + 1) from by omega] at this

lemma wf_parent (qas : List QAPair) (hwf : wellFormedB qas = true)
    (k : Nat) (qa : QAPair) (j : Int) (hk : qas.get? k = some qa)
    (hp : qa.parent_qa_id = some j) : 0 ≤ j ∧ j < (k : Int) := by
  have h := wfAux_get qas 0 k qa hwf hk
  rw [Nat.zero_add] at h
  unfold qaParentOkB at h
  rw [hp] at h
  rcases Bool.and_eq_true _ _ |>.mp h with ⟨h1, h2⟩
  exact ⟨of_decide_eq_true h1, of_decide_eq_true h2⟩

lemma walkParents_step (qas : List QAPair) (f : Nat) (k : Nat) (qa : QAPair)
    (hk : k < qas.length) (hqa : qas.get? k = some qa) :
    walkParents qas (f + 1) (k : Int) =
      (match qa.parent_qa_id with
       | none => WalkResult.ok [(qa.question, qa.answer)]
       | some j =>
         match walkParents qas f j with
         | WalkResult.ok h => WalkResult.ok (h ++ [(qa.question, qa.answer)])
         | WalkResult.err => WalkResult.err
         | WalkResult.timeout => WalkResult.timeout) := by
  have hpg : pyGet qas (k : Int) = some qa := by rw [pyGet_nat qas k hk, hqa]
  simp only [walkParents, hpg]

/-- A parent chain from a root entry (no parent) down to the entry at
position `k`, following the stored parent references. -/
inductive AncestorChain (qas : List QAPair) : List Nat → Nat → Prop
  | root (k : Nat) (qa : QAPair) (hk : qas.get? k = some qa)
      (hp : qa.parent_qa_id = none) : AncestorChain qas [k] k
  | step (ch : List Nat) (j k : Nat) (qa : QAPair) (hk : qas.get? k = some qa)
      (hp : qa.parent_qa_id = some (j : Int))
      (hch : AncestorChain qas ch j) : AncestorChain qas (ch ++ [k]) k

lemma walk_wf_aux (qas : List QAPair) (hwf : wellFormedB qas = true) :
    ∀ n k : Nat, k < qas.length → k ≤ n → ∀ fuel : Nat, k < fuel →
    ∃ ch : List Nat,
      AncestorChain qas ch k ∧ List.Chain' (· < ·) ch ∧ ch.getLast? = some k ∧
      walkParents qas fuel (k : Int) =
        WalkResult.ok (ch.map fun j => ((qaAt qas j).question, (qaAt qas j).answer)) := by
  intro n
  induction n with
  | zero =>
    intro k hk hkn fuel hfuel
    have hk0 : k = 0 := Nat.le_zero.mp hkn
    subst hk0
    obtain ⟨f, rfl⟩ : ∃ f, fuel = f + 1 := ⟨fuel - 1, by omega⟩
    have hqa : qas.get? 0 = some (qas.get ⟨0, hk⟩) := List.get?_eq_get hk
    have hqaAt : qaAt qas 0 = qas.get ⟨0, hk⟩ := by unfold qaAt; rw [hqa]; rfl
    cases hp : (qas.get ⟨0, hk⟩).parent_qa_id with
    | none =>
      refine ⟨[0], AncestorChain.root 0 _ hqa hp, by simp, by simp, ?_⟩
      rw [walkParents_step qas f 0 _ hk hqa, hp]
      simp [hqaAt]
    | some j =>
      exfalso
      rcases wf_parent qas hwf 0 _ j hqa hp with ⟨hj0, hjk⟩
      omega
  | succ n ih =>
    intro k hk hkn fuel hfuel
    obtain ⟨f, rfl⟩ : ∃ f, fuel = f + 1 := ⟨fuel - 1, by omega⟩
    have hqa : qas.get? k = some (qas.get ⟨k, hk⟩) := List.get?_eq_get hk
    have hqaAt : qaAt qas k = qas.get ⟨k, hk⟩ := by unfold qaAt; rw [hqa]; rfl
    cases hp : (qas.get ⟨k, hk⟩).parent_qa_id with
    | none =>
      refine ⟨[k], AncestorChain.root k _ hqa hp, by simp, by simp, ?_⟩
      rw [walkParents_step qas f k _ hk hqa, hp]
      simp [hqaAt]
    | some j =>
      rcases wf_parent qas hwf k _ j hqa hp with ⟨hj0, hjk⟩
      have hjeq : ((j.toNat : Nat) : Int) = j := Int.toNat_of_nonneg hj0
      have hj'k : j.toNat < k := by omega
      have hj'len : j.toNat < qas.length := Nat.lt_trans hj'k hk
      have hj'n : j.toNat ≤ n := by omega
      have hj'fuel : j.toNat < f := by omega
      obtain ⟨ch, hchain, hsort, hlast, hwalk⟩ := ih j.toNat hj'len hj'n f hj'fuel
      refine ⟨ch ++ [k],
        AncestorChain.step ch j.toNat k _ hqa (by rw [hp, hjeq]) hchain, ?_,
        List.getLast?_concat ch, ?_⟩
      · rw [List.chain'_append]
        refine ⟨hsort, List.chain'_singleton k, ?_⟩
        intro x hx y hy
        rw [hlast] at hx
        simp only [Option.mem_def, Option.some_inj] at hx
        simp only [List.head?_cons, Option.mem_def, Option.some_inj] at hy
        subst hx; subst hy
        exact hj'k
      · have hwalk' : walkParents qas f j =
            WalkResult.ok (List.map (fun j =>
              ((qaAt qas j).question, (qaAt qas j).answer)) ch) := by
          rw [← hjeq]; exact hwalk
        rw [walkParents_step qas f k _ hk hqa, hp]
        show (match walkParents qas f j with
          | WalkResult.ok h =>
            WalkResult.ok (h ++
              [((qas.get ⟨k, hk⟩).question, (qas.get ⟨k, hk⟩).answer)])
          | WalkResult.err => WalkResult.err
          | WalkResult.timeout => WalkResult.timeout) = _
        rw [hwalk']
        simp [hqaAt]

/-- Claim C8 (amended: the walk terminates for well-formed records — those
whose parent references all point strictly backwards, as produced by
appends with in-range parent positions; the source does not validate the
supplied parent on append, so ill-formed records with cycles are reachable
and the walk then never terminates, see the counterexample): for a
well-formed record and any in-range start position the parent-link walk
terminates and returns the (question, answer) pairs — thinking excluded —
of the ancestor chain oldest-first (strictly increasing positions), and
the streaming Q&A call prepends exactly these pairs as alternating
user/assistant turns before the current question. -/
theorem threading_wellformed_walk (qas : List QAPair) (i : Int)
    (hwf : wellFormedB qas = true) (h0 : 0 ≤ i) (h1 : i < (qas.length : Int)) :
    ∃ ch : List Nat,
      AncestorChain qas ch i.toNat ∧
      List.Chain' (· < ·) ch ∧
      ch.getLast? = some i.toNat ∧
      walkParents qas (qas.length + 1) i =
        WalkResult.ok (ch.map fun k => ((qaAt qas k).question, (qaAt qas k).answer)) ∧
      (∀ (paper : Paper), paper.qa_pairs = qas →
        ∀ (q : String) (cfg : Config) (resolve : String → Option Paper)
          (att : Nat → List Delta × Option String),
        ∃ run, ask_custom_question_stream paper q cfg (some i) resolve att =
            some run ∧
          run.req.history =
            ch.map (fun k => ((qaAt qas k).question, (qaAt qas k).answer)) ∧
          run.req.messages = buildMessages cfg.system_prompt run.req.history
            run.req.pfx run.req.q) := by
  have hieq : ((i.toNat : Nat) : Int) = i := Int.toNat_of_nonneg h0
  have hlen : i.toNat < qas.length := by omega
  obtain ⟨ch, hchain, hsort, hlast, hwalk⟩ :=
    walk_wf_aux qas hwf i.toNat i.toNat hlen le_rfl (qas.length + 1) (by omega)
  have hwalk' : walkParents qas (qas.length + 1) i =
      WalkResult.ok (ch.map fun k =>
        ((qaAt qas k).question, (qaAt qas k).answer)) := by
    rw [← hieq]; exact hwalk
  refine ⟨ch, hchain, hsort, hlast, hwalk', ?_⟩
  intro paper hpq q cfg resolve att
  have hhist : historyFor paper.qa_pairs (some i) =
      WalkResult.ok (ch.map fun k =>
        ((qaAt qas k).question, (qaAt qas k).answer)) := by
    unfold historyFor
    rw [hpq]
    show (if 0 ≤ i ∧ i < (qas.length : Int) then
        walkParents qas (qas.length + 1) i else WalkResult.ok []) = _
    rw [if_pos ⟨h0, h1⟩]
    exact hwalk'
  have hcases := stream_cases paper q cfg (some i) resolve att _ hhist
  rcases hres : (runAttempts (isThinkQ q) att).2 with _ | ⟨ft, fa⟩
  · refine ⟨⟨(runAttempts (isThinkQ q) att).1, paper, [],
      streamReq paper q cfg resolve _⟩, ?_, rfl, rfl⟩
    rw [hcases, hres]
  · by_cases hc : (fa != "" || ft != "") = true
    · refine ⟨⟨(runAttempts (isThinkQ q) att).1,
        streamAppended paper q (some i) ft fa,
        [streamAppended paper q (some i) ft fa],
        streamReq paper q cfg resolve _⟩, ?_, rfl, rfl⟩
      rw [hcases, hres]
      simp only [hc, if_true]
    · refine ⟨⟨(runAttempts (isThinkQ q) att).1, paper, [],
        streamReq paper q cfg resolve _⟩, ?_, rfl, rfl⟩
      rw [hcases, hres]
      simp only [Bool.not_eq_true] at hc
      simp only [hc, Bool.false_eq_true, if_false]

def exQas : List QAPair :=
  [{ question := "q0", answer := "a0" },
   { question := "q1", answer := "a1", parent_qa_id := some 0 }]

/-- Witness for C8 (amended) at a concrete two-entry thread. -/
theorem threading_wellformed_walk_witness :
    wellFormedB exQas = true ∧
    (∃ ch : List Nat,
      AncestorChain exQas ch (1 : Int).toNat ∧
      List.Chain' (· < ·) ch ∧
      ch.getLast? = some (1 : Int).toNat ∧
      walkParents exQas (exQas.length + 1) 1 =
        WalkResult.ok (ch.map fun k =>
          ((qaAt exQas k).question, (qaAt exQas k).answer)) ∧
      (∀ (paper : Paper), paper.qa_pairs = exQas →
        ∀ (q : String) (cfg : Config) (resolve : String → Option Paper)
          (att : Nat → List Delta × Option String),
        ∃ run, ask_custom_question_stream paper q cfg (some 1) resolve att =
            some run ∧
          run.req.history =
            ch.map (fun k => ((qaAt exQas k).question, (qaAt exQas k).answer)) ∧
          run.req.messages = buildMessages cfg.system_prompt run.req.history
            run.req.pfx run.req.q)) :=
  ⟨by decide, threading_wellformed_walk exQas 1 (by decide) (by decide) (by decide)⟩

def selfLoopEntry : QAPair :=
  { question := "q", answer := "A", parent_qa_id := some 0 }

lemma selfLoop_walk_timeout (fuel : Nat) :
    walkParents [selfLoopEntry] fuel 0 = WalkResult.timeout := by
  induction fuel with
  | zero => rfl
  | succ f ih =>
    show walkParents [selfLoopEntry] (f + 1) (((0 : Nat) : Int)) = WalkResult.timeout
    rw [walkParents_step [selfLoopEntry] f 0 selfLoopEntry (by decide) rfl]
    show (match walkParents [selfLoopEntry] f (0 : Int) with
      | WalkResult.ok h => WalkResult.ok (h ++ [("q", "A")])
      | WalkResult.err => WalkResult.err
      | WalkResult.timeout => WalkResult.timeout) = WalkResult.timeout
    rw [ih]

def attOkA : Nat → List Delta × Option String :=
  fun _ => ([⟨none, some ("A")⟩], none)

/-- C8 counterexample: parent positions are not validated on append, so a
follow-up naming parent 0 on a record with no entries creates an entry at
position 0 whose parent reference is 0 — a cycle reachable purely through
the system's own streaming Q&A operation. The parent-link walk on that
record never terminates (it exhausts any fuel), and a subsequent follow-up
from that entry diverges, falsifying "walking parent links from any
supplied parent position terminates". -/
theorem walk_cycle_cex :
    (ask_custom_question_stream exPaper ("q") cexCfgEmpty (some 0) resolveNone
      attOkA).map StreamRun.paper =
      some { exPaper with qa_pairs := [selfLoopEntry] } ∧
    walkParents [selfLoopEntry] ([selfLoopEntry].length + 1) 0 =
      WalkResult.timeout ∧
    walkParents [selfLoopEntry] 1000000 0 = WalkResult.timeout ∧
    ask_custom_question_stream { exPaper with qa_pairs := [selfLoopEntry] } "q2"
      cexCfgEmpty (some 0) resolveNone attOkA = none :=
  ⟨rfl, selfLoop_walk_timeout 2, selfLoop_walk_timeout 1000000, rfl⟩
